import Mathlib

/-!
Verification development for the afk-code transcript tracker and relay.

The definitions below are a shallow embedding of the TypeScript sources:
  * `src/slack/message-formatter.ts` (SessionManager: the socket close
    handler, findActiveJsonlFile, processJsonlUpdates, extractSlug,
    extractTodos, isStopHookSummary, parseJsonlLine)
  * `mobile/lib/relay.ts` (handleMobileMessage)

JavaScript values coming out of `JSON.parse` are modelled by the inductive
type `Json`; a thrown parse error is modelled as `Option.none`, so each
function that wraps `JSON.parse` in try/catch takes an `Option Json`.
Runtime effect functions (`Bun.hash`, `JSON.stringify` on todo arrays,
`new Date(x).valueOf()`) enter as explicit parameters of a `TrackerEnv`
record; `Date` comparison against an invalid date (NaN) is false, which is
modelled by `dateVal` returning `Option Int` with `none` for NaN.
-/

mutual
/-- JavaScript values as produced by JSON.parse. Arrays and objects hold
their elements through the mutually defined list types below. -/
inductive Json where
  | null : Json
  | bool : Bool → Json
  | num : Int → Json
  | str : String → Json
  | arr : JsonList → Json
  | obj : JsonFields → Json
deriving DecidableEq

/-- Elements of a JSON array. -/
inductive JsonList where
  | nil : JsonList
  | cons : Json → JsonList → JsonList
deriving DecidableEq

/-- Key-value fields of a JSON object. -/
inductive JsonFields where
  | nil : JsonFields
  | cons : String → Json → JsonFields → JsonFields
deriving DecidableEq
end

/-- Number of elements of a JSON array. -/
def JsonList.length : JsonList → Nat
  | .nil => 0
  | .cons _ xs => 1 + xs.length

/-- Lookup of the first field with the given key. -/
def JsonFields.lookupField : JsonFields → String → Option Json
  | .nil, _ => none
  | .cons k v rest, key => if k == key then some v else rest.lookupField key

/-- Property lookup `o[k]`; a non-object value (and a missing key) gives
`none`, standing for JavaScript `undefined`. -/
def Json.getField : Json → String → Option Json
  | .obj fields, k => fields.lookupField k
  | _, _ => none

/-- JavaScript truthiness of a defined value. -/
def Json.truthy : Json → Bool
  | .null => false
  | .bool b => b
  | .num n => n != 0
  | .str s => s != ""
  | .arr _ => true
  | .obj _ => true

/-- Truthiness of a possibly-undefined value (`undefined` is falsy). -/
def truthyOpt : Option Json → Bool
  | some v => v.truthy
  | none => false

mutual
/-- JavaScript string coercion `String(x)`, used where the source
concatenates a field value onto a string. -/
def Json.jsToString : Json → String
  | .null => "null"
  | .bool true => "true"
  | .bool false => "false"
  | .num n => toString n
  | .str s => s
  | .arr xs => String.intercalate "," (JsonList.coerceElems xs)
  | .obj _ => "[object Object]"

/-- Element-wise coercion of an array, as in `Array.prototype.join`:
`null` elements render as the empty string. -/
def JsonList.coerceElems : JsonList → List String
  | .nil => []
  | .cons .null xs => "" :: JsonList.coerceElems xs
  | .cons x xs => x.jsToString :: JsonList.coerceElems xs
end

/-- Whitespace trimming from both ends, as `String.prototype.trim` (the
common whitespace characters; exotic Unicode space classes are not
modelled). -/
def jsTrim (s : String) : String :=
  String.mk (((s.toList.dropWhile Char.isWhitespace).reverse.dropWhile Char.isWhitespace).reverse)

/-- `s.endsWith(suffix)`. -/
def jsEndsWith (s suffix : String) : Bool :=
  suffix.toList.isSuffixOf s.toList

/-- `s.startsWith(p)`. -/
def jsStartsWith (s p : String) : Bool :=
  p.toList.isPrefixOf s.toList

/-- Strict equality `j === s` against a string literal. -/
def Json.isStrVal : Json → String → Bool
  | .str t, s => t == s
  | _, _ => false

/-- Strict equality `o.k === s` of a field against a string literal. -/
def fieldIsStr (j : Json) (k s : String) : Bool :=
  match j.getField k with
  | some v => v.isStrVal s
  | none => false

/-- JavaScript `x || d` defaulting of a possibly-undefined value. -/
def jsOr (j : Option Json) (d : Json) : Json :=
  match j with
  | some v => if v.truthy then v else d
  | none => d

/-- Session status of `message-formatter.ts` (running | idle | ended). -/
inductive Status where
  | running : Status
  | idle : Status
  | ended : Status
deriving DecidableEq

/-- Todo item as built by `SessionManager.extractTodos`. The source copies
the parsed field values with only `|| ''` / `|| 'pending'` defaulting and
no type check, so the fields stay raw `Json` values here. -/
structure TodoItem where
  content : Json
  status : Json
  activeForm : Option Json
deriving DecidableEq

/-- `ChatMessage` of `message-formatter.ts`. The source casts
`message.role` and copies `data.timestamp` without a runtime check, so
both stay raw `Json` values here. -/
structure ChatMessage where
  role : Json
  content : String
  timestamp : Json
deriving DecidableEq

/-- `SessionManager.isStopHookSummary`: true when the parsed record has
`type === 'system' && subtype === 'stop_hook_summary'`; a parse failure
(the catch branch) gives false. -/
def isStopHookSummary (parsed : Option Json) : Bool :=
  match parsed with
  | some data => fieldIsStr data "type" "system" && fieldIsStr data "subtype" "stop_hook_summary"
  | none => false

/-- `SessionManager.extractSlug`: the `slug` field when it is a truthy
string (`data.slug && typeof data.slug === 'string'`); otherwise, and on
parse failure, `none`. -/
def extractSlug (parsed : Option Json) : Option String :=
  match parsed with
  | some data =>
    match data.getField "slug" with
    | some (.str s) => if s != "" then some s else none
    | _ => none
  | none => none

/-- One todo entry: `content: t.content || ''`, `status: t.status ||
'pending'`, `activeForm: t.activeForm`. Property access on a null
element throws a TypeError in the source, modelled as `none`. -/
def todoOfJson : Json → Option TodoItem
  | .null => none
  | t => some
    { content := jsOr (t.getField "content") (.str "")
      status := jsOr (t.getField "status") (.str "pending")
      activeForm := t.getField "activeForm" }

/-- Mapped todo array elements; a throw on any element aborts the map. -/
def todoListOfJson : JsonList → Option (List TodoItem)
  | .nil => some []
  | .cons t ts =>
    match todoOfJson t, todoListOfJson ts with
    | some item, some rest => some (item :: rest)
    | _, _ => none

/-- `SessionManager.extractTodos`: when `todos` is a non-empty array, map
each entry to a `TodoItem`; otherwise, and on parse failure or a thrown
TypeError (a null array element), the catch gives `none`. -/
def extractTodos (parsed : Option Json) : Option (List TodoItem) :=
  match parsed with
  | some data =>
    match data.getField "todos" with
    | some (.arr ts) =>
      if ts.length > 0 then todoListOfJson ts else none
    | _ => none
  | none => none

/-- Concatenation of `block.text` over the content blocks with
`block.type === 'text' && block.text` truthy (`content += block.text`).
Reading `block.type` of a null element throws a TypeError in the source,
modelled as `none`. -/
def concatTextBlocks : JsonList → Option String
  | .nil => some ""
  | .cons .null _ => none
  | .cons block rest =>
    match concatTextBlocks rest with
    | some s => some
        ((if fieldIsStr block "type" "text" && truthyOpt (block.getField "text") then
          (jsOr (block.getField "text") (.str "")).jsToString
        else "") ++ s)
    | none => none

/-- Text content of a message value: the `content` string itself when it is
a string, the concatenated text blocks when it is an array (with `none`
for a thrown access), and `''` otherwise (the `let content = ''`
initializer). -/
def contentOfMessage (message : Json) : Option String :=
  match message.getField "content" with
  | some (.str s) => some s
  | some (.arr blocks) => concatTextBlocks blocks
  | _ => some ""

/-- `SessionManager.parseJsonlLine`. The argument `now` stands for
`new Date().toISOString()`, the default timestamp. -/
def parseJsonlLine (parsed : Option Json) (now : String) : Option ChatMessage :=
  match parsed with
  | none => none
  | some data =>
    if !(fieldIsStr data "type" "user" || fieldIsStr data "type" "assistant") then none
    else if truthyOpt (data.getField "isMeta") || truthyOpt (data.getField "subtype") then none
    else
      match data.getField "message" with
      | none => none
      | some message =>
        if !message.truthy then none
        else if !truthyOpt (message.getField "role") then none
        else
          match contentOfMessage message with
          | none => none
          | some content =>
            if jsTrim content == "" then none
            else some
              { role := (message.getField "role").getD .null
                content := jsTrim content
                timestamp := jsOr (data.getField "timestamp") (.str now) }

/-- Runtime environment of `SessionManager.processJsonlUpdates`: the JSON
parser (`none` models a thrown parse error), the line hash
(`Bun.hash(line).toString()`), todo-array serialization (`JSON.stringify`),
date valuation (`new Date(x).valueOf()`, `none` for NaN), and the current
time string (`new Date().toISOString()`). -/
structure TrackerEnv where
  jparse : String → Option Json
  hash : String → String
  stringifyTodos : List TodoItem → String
  dateVal : Json → Option Int
  now : String

/-- Per-session mutable fields of `InternalSession` touched by
`processJsonlUpdates`. -/
structure SessState where
  seenMessages : List String
  slugFound : Bool
  name : String
  lastTodosHash : String
  status : Status
deriving DecidableEq

/-- Callback invocations fired by the tracker (the `SessionEvents` of
`message-formatter.ts`). -/
inductive Event where
  | sessionUpdate : String → String → Event
  | sessionStatus : String → Status → Event
  | message : String → Json → String → Event
  | todos : String → List TodoItem → Event
deriving DecidableEq

/-- `messageTime < session.startedAt` where `messageTime = new
Date(parsed.timestamp)`; an invalid date (NaN) compares false. -/
def dateBefore (env : TrackerEnv) (timestamp : Json) (startedAt : Int) : Bool :=
  match env.dateVal timestamp with
  | some v => v < startedAt
  | none => false

/-- Slug branch of the per-line loop: only when no slug was found yet, a
discovered slug sets `slugFound`, renames the session and fires
`onSessionUpdate`. -/
def slugStep (env : TrackerEnv) (sid : String) (st : SessState) (line : String) :
    SessState × List Event :=
  if !st.slugFound then
    match extractSlug (env.jparse line) with
    | some slug => ({ st with slugFound := true, name := slug }, [.sessionUpdate sid slug])
    | none => (st, [])
  else (st, [])

/-- Todos branch of the per-line loop: hash the extracted list and fire
`onTodos` only when the hash differs from the last emitted one. -/
def todosStep (env : TrackerEnv) (sid : String) (st : SessState) (line : String) :
    SessState × List Event :=
  match extractTodos (env.jparse line) with
  | some todos =>
    let todosHash := env.hash (env.stringifyTodos todos)
    if todosHash != st.lastTodosHash then
      ({ st with lastTodosHash := todosHash }, [.todos sid todos])
    else (st, [])
  | none => (st, [])

/-- Body of the per-line loop after the dedup-cache check: slug branch,
todos branch, stop-hook status branch (with `continue`), then the message
branch with stale-timestamp filtering and the running transition. -/
def processNewLine (env : TrackerEnv) (sid : String) (startedAt : Int) (st : SessState)
    (line : String) : SessState × List Event :=
  let slugRes := slugStep env sid st line
  let todosRes := todosStep env sid slugRes.1 line
  let st2 := todosRes.1
  let evs := slugRes.2 ++ todosRes.2
  if isStopHookSummary (env.jparse line) then
    if st2.status != .idle then
      ({ st2 with status := .idle }, evs ++ [.sessionStatus sid .idle])
    else (st2, evs)
  else
    match parseJsonlLine (env.jparse line) env.now with
    | some parsed =>
      if dateBefore env parsed.timestamp startedAt then (st2, evs)
      else
        let evs2 := evs ++ [.message sid parsed.role parsed.content]
        if parsed.role.isStrVal "user" && st2.status != .running then
          ({ st2 with status := .running }, evs2 ++ [.sessionStatus sid .running])
        else (st2, evs2)
    | none => (st2, evs)

/-- One iteration of the line loop of `processJsonlUpdates`: a line whose
hash is in the dedup cache is skipped, otherwise the hash is inserted and
the line is classified. -/
def processLine (env : TrackerEnv) (sid : String) (startedAt : Int) (st : SessState)
    (line : String) : SessState × List Event :=
  let lineHash := env.hash line
  if st.seenMessages.contains lineHash then (st, [])
  else processNewLine env sid startedAt { st with seenMessages := lineHash :: st.seenMessages } line

/-- The full line loop, accumulating fired events in order. -/
def processLines (env : TrackerEnv) (sid : String) (startedAt : Int) (st : SessState) :
    List String → SessState × List Event
  | [] => (st, [])
  | l :: ls =>
    let r := processLine env sid startedAt st l
    let rest := processLines env sid startedAt r.1 ls
    (rest.1, r.2 ++ rest.2)

/-- `content.split('\n').filter(Boolean)`: the character sequence is split
on the newline character and empty segments are dropped. -/
def splitLines (content : String) : List String :=
  ((content.toList.splitOn '\n').map (fun cs => String.mk cs)).filter (fun s => s != "")

/-- `SessionManager.processJsonlUpdates` on one observed file content. -/
def processJsonlUpdates (env : TrackerEnv) (sid : String) (startedAt : Int) (st : SessState)
    (content : String) : SessState × List Event :=
  processLines env sid startedAt st (splitLines content)

/-- Candidate transcript paths of `findActiveJsonlFile`: directory entries
ending in `.jsonl` and not starting with `agent-`, turned into full paths,
minus the claimed-files set. -/
def candidatePaths (projectDir : String) (files : List String) (claimed : List String) :
    List String :=
  ((files.filter (fun f => jsEndsWith f ".jsonl" && !(jsStartsWith f "agent-"))).map
    (fun f => projectDir ++ "/" ++ f)).filter (fun p => !claimed.contains p)

/-- `SessionManager.findActiveJsonlFile`. `listing` is the `readdir`
result, with `none` for the thrown case (the catch branch returns null);
`mtimeOf` values each path (`stat?.mtime || 0`). The JavaScript
`sort((a, b) => b.mtime - a.mtime)` is a stable descending sort, modelled
by `List.insertionSort` with the matching total preorder. -/
def findActiveJsonlFile (projectDir : String) (listing : Option (List String))
    (mtimeOf : String → Int) (claimed : List String) : Option String :=
  match listing with
  | none => none
  | some files =>
    let allPaths := candidatePaths projectDir files claimed
    if allPaths.length = 0 then none
    else if allPaths.length = 1 then allPaths.head?
    else (allPaths.insertionSort (fun a b => mtimeOf b ≤ mtimeOf a)).head?

/-- Teardown side effects of the SessionManager close path. -/
inductive MgrAction where
  | stopWatcher : String → MgrAction
  | releaseFile : String → MgrAction
  | sessionEnd : String → MgrAction
deriving DecidableEq

/-- The slice of `InternalSession` the socket close handler inspects. -/
structure MgrSession where
  id : String
  socket : Nat
  hasWatcher : Bool
  watchedFile : Option String
deriving DecidableEq

/-- The session map (insertion-ordered, as a JavaScript `Map`) and the
claimed-files set of `SessionManager`. -/
structure MgrState where
  sessions : List MgrSession
  claimedFiles : List String
deriving DecidableEq

/-- `SessionManager.stopWatching`: close the watcher when present, release
the watched file from the claimed-files set when present. -/
def stopWatching (claimed : List String) (s : MgrSession) : List String × List MgrAction :=
  let watcherActs := if s.hasWatcher then [MgrAction.stopWatcher s.id] else []
  match s.watchedFile with
  | some f => (claimed.erase f, watcherActs ++ [MgrAction.releaseFile f])
  | none => (claimed, watcherActs)

/-- The `for (const [id, session] of this.sessions)` loop of the socket
close handler: on the first session whose socket matches, stop watching,
delete it from the map, fire `onSessionEnd`, and `break`. -/
def closeLoop (sock : Nat) : List MgrSession → List String →
    List MgrSession × List String × List MgrAction
  | [], claimed => ([], claimed, [])
  | s :: rest, claimed =>
    if s.socket == sock then
      let sw := stopWatching claimed s
      (rest, sw.1, sw.2 ++ [MgrAction.sessionEnd s.id])
    else
      let r := closeLoop sock rest claimed
      (s :: r.1, r.2.1, r.2.2)

/-- The socket `close` callback installed by `SessionManager.start`. -/
def handleSocketClose (st : MgrState) (sock : Nat) : MgrState × List MgrAction :=
  let r := closeLoop sock st.sessions st.claimedFiles
  ({ sessions := r.1, claimedFiles := r.2.1 }, r.2.2)

/-- Client classes of the relay (`ClientType` of `relay.ts`). -/
inductive ClientKind where
  | daemon : ClientKind
  | mobile : ClientKind
deriving DecidableEq

/-- `ClientData` attached to a relay WebSocket. -/
structure ClientData where
  kind : ClientKind
  userId : String
  authenticated : Bool
  subscribedSessions : List String
deriving DecidableEq

/-- Session descriptor held by the Connection Registry. -/
structure RegSession where
  id : String
  name : String
  owner : String
  status : Status
deriving DecidableEq

/-- Modelled from the spec: the Connection Registry state
(`connections.ts` is not part of the sources); connections are
(socket id, user id, kind) entries, sessions are owned by the host
connection that registered them, and tracked pairs are the per-user
interested-session relation. -/
structure Registry where
  connections : List (Nat × String × ClientKind)
  sessions : List (Nat × RegSession)
  tracked : List (String × String)
deriving DecidableEq

/-- Modelled from the spec: `registerConnection(conn, userId, kind)` adds
the connection entry. -/
def Registry.registerConnection (reg : Registry) (ws : Nat) (uid : String)
    (kind : ClientKind) : Registry :=
  { reg with connections := (ws, uid, kind) :: reg.connections }

/-- Modelled from the spec: `getSessionsForUser` returns all sessions
owned by that user. -/
def Registry.getSessionsForUser (reg : Registry) (uid : String) : List RegSession :=
  (reg.sessions.filter (fun s => s.2.owner == uid)).map (fun s => s.2)

/-- Modelled from the spec: `subscribeToSession` fails when no session
with that id exists or it is not owned by the observer, and otherwise adds
the id to the observer subscription set. -/
def Registry.subscribeToSession (reg : Registry) (d : ClientData) (sid : String) :
    Bool × ClientData :=
  if reg.sessions.any (fun s => s.2.id == sid && s.2.owner == d.userId) then
    (true, { d with subscribedSessions := sid :: d.subscribedSessions })
  else (false, d)

/-- Modelled from the spec: `unsubscribeFromSession` removes the id from
the observer subscription set. -/
def Registry.unsubscribeFromSession (d : ClientData) (sid : String) : ClientData :=
  { d with subscribedSessions := d.subscribedSessions.erase sid }

/-- Modelled from the spec: `getDaemonForSession` resolves the host
connection owning the session. -/
def Registry.getDaemonForSession (reg : Registry) (sid : String) : Option Nat :=
  (reg.sessions.find? (fun s => s.2.id == sid)).map (fun s => s.1)

/-- Modelled from the spec: `trackSession` records the interested pair. -/
def Registry.trackSession (reg : Registry) (uid sid : String) : Registry :=
  { reg with tracked := (uid, sid) :: reg.tracked }

/-- Modelled from the spec: `untrackSession` removes the pair. -/
def Registry.untrackSession (reg : Registry) (uid sid : String) : Registry :=
  { reg with tracked := reg.tracked.erase (uid, sid) }

/-- Inbound observer messages (`MobileMessage` of `relay.ts`). -/
inductive MobileMessage where
  | auth : String → MobileMessage
  | listSessions : MobileMessage
  | subscribe : String → MobileMessage
  | unsubscribe : String → MobileMessage
  | sendInput : String → String → MobileMessage
  | trackSession : String → MobileMessage
  | untrackSession : String → MobileMessage
deriving DecidableEq

/-- Whether a message is the `auth` message. -/
def MobileMessage.isAuth : MobileMessage → Bool
  | .auth _ => true
  | _ => false

/-- Replies the relay sends back on the observer socket. -/
inductive MobileOut where
  | authError : String → MobileOut
  | authOk : MobileOut
  | sessionsList : List RegSession → MobileOut
  | errorMsg : String → MobileOut
deriving DecidableEq

/-- Result of one `handleMobileMessage` call: the connection data, the
registry, the replies sent to the observer, the `send_input` messages
forwarded to a daemon connection, and whether the socket was closed. -/
structure MobileResult where
  data : ClientData
  registry : Registry
  replies : List MobileOut
  forwards : List (Nat × String × String)
  closed : Bool
deriving DecidableEq

/-- `handleMobileMessage` of `relay.ts`. `validate` is
`authService.validateToken`; every non-auth handler guards on
`ws.data.authenticated` and returns with no effect when it is false.
Marking the connection authenticated on successful auth is the
spec-modelled effect of `registerConnection`. -/
def handleMobileMessage (validate : String → Option String) (ws : Nat) (d : ClientData)
    (reg : Registry) (msg : MobileMessage) : MobileResult :=
  match msg with
  | .auth token =>
    match validate token with
    | none => ⟨d, reg, [.authError "Invalid token"], [], true⟩
    | some uid =>
      ⟨{ d with authenticated := true, userId := uid },
        reg.registerConnection ws uid .mobile, [.authOk], [], false⟩
  | .listSessions =>
    if !d.authenticated then ⟨d, reg, [], [], false⟩
    else ⟨d, reg, [.sessionsList (reg.getSessionsForUser d.userId)], [], false⟩
  | .subscribe sid =>
    if !d.authenticated then ⟨d, reg, [], [], false⟩
    else
      let r := reg.subscribeToSession d sid
      if r.1 then ⟨r.2, reg, [], [], false⟩
      else ⟨r.2, reg, [.errorMsg "Session not found or not accessible"], [], false⟩
  | .unsubscribe sid =>
    if !d.authenticated then ⟨d, reg, [], [], false⟩
    else ⟨Registry.unsubscribeFromSession d sid, reg, [], [], false⟩
  | .sendInput sid text =>
    if !d.authenticated then ⟨d, reg, [], [], false⟩
    else
      match reg.getDaemonForSession sid with
      | some dws => ⟨d, reg, [], [(dws, sid, text)], false⟩
      | none => ⟨d, reg, [.errorMsg "Session daemon not connected"], [], false⟩
  | .trackSession sid =>
    if !d.authenticated then ⟨d, reg, [], [], false⟩
    else ⟨d, reg.trackSession d.userId sid, [], [], false⟩
  | .untrackSession sid =>
    if !d.authenticated then ⟨d, reg, [], [], false⟩
    else ⟨d, reg.untrackSession d.userId sid, [], [], false⟩

/-- Concatenation of text-typed content blocks as the claim wording reads
it, with no notion of a thrown access: non-text elements (a null element
included) contribute nothing. Stated from the claim wording, for
comparison with the source embedding. -/
def claimTextBlocks : JsonList → String
  | .nil => ""
  | .cons block rest =>
    (if fieldIsStr block "type" "text" && truthyOpt (block.getField "text") then
      (jsOr (block.getField "text") (.str "")).jsToString
    else "") ++ claimTextBlocks rest

/-- Text content of a record as the claim wording reads it: the content of
the `message` value (a string, or the concatenation of text-typed blocks),
empty when there is no message value. -/
def recordTextContent (data : Json) : String :=
  match data.getField "message" with
  | some m =>
    match m.getField "content" with
    | some (.str s) => s
    | some (.arr blocks) => claimTextBlocks blocks
    | _ => ""
  | none => ""

/-- Conditions under which claim C5 says `parseJsonlLine` yields a
message, stated from the claim wording: declared type `user` or
`assistant`, no meta or subtype marker, and non-empty text content after
trimming. -/
def claimC5Conditions (data : Json) : Bool :=
  (fieldIsStr data "type" "user" || fieldIsStr data "type" "assistant")
    && !(truthyOpt (data.getField "isMeta") || truthyOpt (data.getField "subtype"))
    && (jsTrim (recordTextContent data) != "")

/-- The content evaluation of the record neither throws (no null element
in a content block array) nor trims to the empty string. -/
def contentOkNonEmpty (data : Json) : Bool :=
  match data.getField "message" with
  | some m =>
    match contentOfMessage m with
    | some c => jsTrim c != ""
    | none => false
  | none => false

/-- The record carries a truthy `message` value with a truthy `role`
field, the condition the source checks and claim C5 omits. -/
def hasTruthyMessageRole (data : Json) : Bool :=
  match data.getField "message" with
  | some m => m.truthy && truthyOpt (m.getField "role")
  | none => false

/-- Whether an `onMessage` invocation occurs in an event list. -/
def hasMessageEvent (evs : List Event) : Bool :=
  evs.any (fun e => match e with | .message _ _ _ => true | _ => false)

/-- Number of `onTodos` invocations in an event list. -/
def countTodoEvents (evs : List Event) : Nat :=
  (evs.filter (fun e => match e with | .todos _ _ => true | _ => false)).length

/-- Number of `onSessionUpdate` invocations in an event list. -/
def countUpdateEvents (evs : List Event) : Nat :=
  (evs.filter (fun e => match e with | .sessionUpdate _ _ => true | _ => false)).length

/-- Record with declared type `user`, no meta or subtype marker and
non-empty content, but whose message value has no `role` field. -/
def c5Record : Json :=
  .obj (.cons "type" (.str "user")
    (.cons "message" (.obj (.cons "content" (.str "hi") .nil)) .nil))

/-- A SessionManager state in which one host connection (socket 0) owns
the two sessions s1 and s2. -/
def c1State : MgrState :=
  { sessions := [⟨"s1", 0, true, some "f1"⟩, ⟨"s2", 0, true, some "f2"⟩]
    claimedFiles := ["f1", "f2"] }

/-- Fresh per-session state as built by the `session_start` handler. -/
def initialSessState : SessState :=
  { seenMessages := [], slugFound := false, name := "Session", lastTodosHash := "", status := .running }

/-- Concrete tracker environment used to evaluate the theorems on inputs:
the hash is the identity, and `jparse` recognises a handful of fixed
lines. -/
def wEnv : TrackerEnv :=
  { jparse := fun s =>
      if s == "slugline" then some (.obj (.cons "slug" (.str "my-slug") .nil))
      else if s == "todoline1" then
        some (.obj (.cons "todos" (.arr (.cons (.obj (.cons "content" (.str "a")
          (.cons "status" (.str "pending") .nil))) .nil)) .nil))
      else if s == "todoline2" then
        some (.obj (.cons "todos" (.arr (.cons (.obj (.cons "content" (.str "a")
          (.cons "status" (.str "pending") .nil))) .nil)) (.cons "extra" (.str "x") .nil)))
      else if s == "oldmsg" then
        some (.obj (.cons "type" (.str "user")
          (.cons "message" (.obj (.cons "role" (.str "user")
            (.cons "content" (.str "hello") .nil)))
          (.cons "timestamp" (.str "t0") .nil))))
      else none
    hash := fun s => s
    stringifyTodos := fun _ => "TD"
    dateVal := fun j => if j == Json.str "t0" then some (-5) else none
    now := "now" }

/-- The todo list extracted from `todoline1` and `todoline2` of `wEnv`. -/
def wTodos : List TodoItem :=
  [{ content := .str "a", status := .str "pending", activeForm := none }]

/-- C10: before authentication the relay accepts only auth messages: an
auth with an invalid token is answered with auth_error, the connection is
closed and no connection entry is registered; every other message type is
silently ignored with no reply and no state change. -/
theorem observer_preauth_only_auth (validate : String → Option String) (ws : Nat)
    (d : ClientData) (reg : Registry) (msg : MobileMessage)
    (hauth : d.authenticated = false) :
    (∀ token, msg = .auth token → validate token = none →
      handleMobileMessage validate ws d reg msg =
        ⟨d, reg, [.authError "Invalid token"], [], true⟩) ∧
    (msg.isAuth = false →
      handleMobileMessage validate ws d reg msg = ⟨d, reg, [], [], false⟩) := by
  constructor
  · rintro token rfl hv
    simp [handleMobileMessage, hv]
  · intro hna
    cases msg <;> simp_all [handleMobileMessage, MobileMessage.isAuth]

/-- Evaluation of the C10 theorem on a concrete unauthenticated
connection: a failed auth and a pre-auth list_sessions message. -/
theorem observer_preauth_only_auth_witness :
    handleMobileMessage (fun _ => none) 0 ⟨.mobile, "", false, []⟩ ⟨[], [], []⟩ (.auth "bad") =
      ⟨⟨.mobile, "", false, []⟩, ⟨[], [], []⟩, [.authError "Invalid token"], [], true⟩ ∧
    handleMobileMessage (fun _ => none) 0 ⟨.mobile, "", false, []⟩ ⟨[], [], []⟩ .listSessions =
      ⟨⟨.mobile, "", false, []⟩, ⟨[], [], []⟩, [], [], false⟩ := by
  exact ⟨(observer_preauth_only_auth (fun _ => none) 0 _ _ _ rfl).1 "bad" rfl rfl,
    (observer_preauth_only_auth (fun _ => none) 0 _ _ _ rfl).2 rfl⟩

/-- C9: findActiveJsonlFile considers exactly the candidate paths (jsonl
naming convention, not claimed): none gives null, a unique candidate is
returned, and with several candidates the returned one is a candidate of
maximal modification time. -/
theorem findActiveJsonl_selects (pd : String) (files : List String) (mtimeOf : String → Int)
    (claimed : List String) :
    findActiveJsonlFile pd none mtimeOf claimed = none ∧
    (candidatePaths pd files claimed = [] →
      findActiveJsonlFile pd (some files) mtimeOf claimed = none) ∧
    (∀ p, candidatePaths pd files claimed = [p] →
      findActiveJsonlFile pd (some files) mtimeOf claimed = some p) ∧
    (candidatePaths pd files claimed ≠ [] →
      ∃ r, findActiveJsonlFile pd (some files) mtimeOf claimed = some r ∧
        r ∈ candidatePaths pd files claimed ∧
        ∀ q ∈ candidatePaths pd files claimed, mtimeOf q ≤ mtimeOf r) := by
  refine ⟨rfl, ?_, ?_, ?_⟩
  · intro h
    simp [findActiveJsonlFile, h]
  · intro p h
    simp [findActiveJsonlFile, h]
  · intro h
    haveI : IsTotal String (fun a b => mtimeOf b ≤ mtimeOf a) :=
      ⟨fun a b => le_total (mtimeOf b) (mtimeOf a)⟩
    haveI : IsTrans String (fun a b => mtimeOf b ≤ mtimeOf a) :=
      ⟨fun _ _ _ h1 h2 => le_trans h2 h1⟩
    match hL : candidatePaths pd files claimed with
    | [] => exact absurd hL h
    | [p] =>
      refine ⟨p, by simp [findActiveJsonlFile, hL], by simp, ?_⟩
      intro q hq
      have : q = p := by simpa using hq
      exact this ▸ le_refl _
    | p :: q :: rest =>
      have hperm := List.perm_insertionSort (fun a b => mtimeOf b ≤ mtimeOf a) (p :: q :: rest)
      have hsort := List.sorted_insertionSort (fun a b => mtimeOf b ≤ mtimeOf a) (p :: q :: rest)
      cases hS : List.insertionSort (fun a b => mtimeOf b ≤ mtimeOf a) (p :: q :: rest) with
      | nil =>
        exact absurd (hS ▸ hperm) (by simp)
      | cons r0 t =>
        refine ⟨r0, ?_, ?_, ?_⟩
        · simp [findActiveJsonlFile, hL, hS]
        · have : r0 ∈ List.insertionSort (fun a b => mtimeOf b ≤ mtimeOf a) (p :: q :: rest) := by
            rw [hS]; exact List.mem_cons_self _ _
          exact hperm.subset this
        · intro x hx
          have hx2 : x ∈ r0 :: t := by
            rw [← hS]
            exact hperm.mem_iff.mpr hx
          rcases List.mem_cons.mp hx2 with h0 | ht
          · exact h0 ▸ le_refl _
          · rw [hS] at hsort
            exact List.rel_of_sorted_cons hsort x ht

/-- Evaluation of the C9 theorem on a concrete directory listing with two
candidates of different modification times and a claimed file. -/
theorem findActiveJsonl_selects_witness :
    candidatePaths "d" ["a.jsonl", "b.jsonl", "agent-c.jsonl", "x.txt"] [] ≠ [] ∧
    ∃ r, findActiveJsonlFile "d" (some ["a.jsonl", "b.jsonl", "agent-c.jsonl", "x.txt"])
        (fun p => if p == "d/b.jsonl" then 7 else 3) [] = some r ∧
      r ∈ candidatePaths "d" ["a.jsonl", "b.jsonl", "agent-c.jsonl", "x.txt"] [] ∧
      ∀ q ∈ candidatePaths "d" ["a.jsonl", "b.jsonl", "agent-c.jsonl", "x.txt"] [],
        (fun p => if p == "d/b.jsonl" then 7 else 3 : String → Int) q ≤
          (fun p => if p == "d/b.jsonl" then 7 else 3 : String → Int) r := by
  exact ⟨by decide,
    (findActiveJsonl_selects "d" ["a.jsonl", "b.jsonl", "agent-c.jsonl", "x.txt"]
      (fun p => if p == "d/b.jsonl" then 7 else 3) []).2.2.2 (by decide)⟩

/-- C1 counterexample: a host connection (socket 0) owning the two
sessions s1 and s2 still has a session with that socket in the map after
the close handler ran, and only one onSessionEnd fired (for s1); the
claimed cascade over every owned session fails. -/
theorem close_cascade_counterexample :
    ((handleSocketClose c1State 0).1.sessions.any (fun t => t.socket == 0)) = true ∧
    ((handleSocketClose c1State 0).2.count (MgrAction.sessionEnd "s2")) = 0 ∧
    (handleSocketClose c1State 0).2 =
      [.stopWatcher "s1", .releaseFile "f1", .sessionEnd "s1"] := by decide

/-- Helper for C1: the close-handler loop on a session list containing
exactly one match removes that session, releases its file, and fires its
teardown actions with exactly one onSessionEnd. -/
theorem closeLoop_single (sock : Nat) (s : MgrSession) (f : String)
    (hw : s.hasWatcher = true) (hf : s.watchedFile = some f) :
    ∀ (ss : List MgrSession) (claimed : List String),
      ss.filter (fun t => t.socket == sock) = [s] →
      closeLoop sock ss claimed =
        (ss.filter (fun t => !(t.socket == sock)), claimed.erase f,
         [.stopWatcher s.id, .releaseFile f, .sessionEnd s.id]) := by
  intro ss
  induction ss with
  | nil => intro claimed h; simp at h
  | cons hd tl ih =>
    intro claimed h
    by_cases hsock : (hd.socket == sock) = true
    · have h2 : hd = s ∧ tl.filter (fun t => t.socket == sock) = [] := by
        simpa [List.filter_cons, hsock] using h
      obtain ⟨hhd, htl⟩ := h2
      have htlneg : tl.filter (fun t => !(t.socket == sock)) = tl := by
        rw [List.filter_eq_self]
        intro a ha
        simp only [Bool.not_eq_true']
        simpa using List.filter_eq_nil_iff.mp htl a ha
      subst hhd
      simp [closeLoop, hsock, stopWatching, hw, hf, htlneg]
    · have hsock2 : (hd.socket == sock) = false := by simpa using hsock
      have h2 : tl.filter (fun t => t.socket == sock) = [s] := by
        simpa [List.filter_cons, hsock2] using h
      have := ih claimed h2
      simp [closeLoop, hsock2, this]

/-- C1 amended: when the closing connection owns exactly one session in
the map, that session is fully torn down: its watcher is stopped, its
claimed file is released, it is removed from the session map, and exactly
one onSessionEnd fires. -/
theorem close_teardown_single (st : MgrState) (sock : Nat) (s : MgrSession) (f : String)
    (huniq : st.sessions.filter (fun t => t.socket == sock) = [s])
    (hw : s.hasWatcher = true) (hf : s.watchedFile = some f) :
    handleSocketClose st sock =
      ({ sessions := st.sessions.filter (fun t => !(t.socket == sock)),
         claimedFiles := st.claimedFiles.erase f },
       [.stopWatcher s.id, .releaseFile f, .sessionEnd s.id]) := by
  unfold handleSocketClose
  rw [closeLoop_single sock s f hw hf st.sessions st.claimedFiles huniq]

/-- Evaluation of the amended C1 theorem on a concrete two-connection
state in which socket 2 owns exactly one session. -/
theorem close_teardown_single_witness :
    handleSocketClose
        { sessions := [⟨"sA", 1, false, none⟩, ⟨"sB", 2, true, some "fB"⟩],
          claimedFiles := ["fB"] } 2 =
      ({ sessions := [⟨"sA", 1, false, none⟩], claimedFiles := [] },
       [.stopWatcher "sB", .releaseFile "fB", .sessionEnd "sB"]) := by
  rw [close_teardown_single _ 2 ⟨"sB", 2, true, some "fB"⟩ "fB" (by decide) rfl rfl]
  decide

/-- The slug branch never touches the dedup cache. -/
theorem slugStep_seen (env : TrackerEnv) (sid : String) (st : SessState) (line : String) :
    (slugStep env sid st line).1.seenMessages = st.seenMessages := by
  unfold slugStep
  split
  · split <;> rfl
  · rfl

/-- The slug branch never touches the last todo hash. -/
theorem slugStep_lastTodosHash (env : TrackerEnv) (sid : String) (st : SessState) (line : String) :
    (slugStep env sid st line).1.lastTodosHash = st.lastTodosHash := by
  unfold slugStep
  split
  · split <;> rfl
  · rfl

/-- The todos branch never touches the dedup cache. -/
theorem todosStep_seen (env : TrackerEnv) (sid : String) (st : SessState) (line : String) :
    (todosStep env sid st line).1.seenMessages = st.seenMessages := by
  unfold todosStep
  split
  · dsimp only
    split <;> rfl
  · rfl

/-- Classification of a line never touches the dedup cache. -/
theorem processNewLine_seen (env : TrackerEnv) (sid : String) (sa : Int) (st : SessState)
    (line : String) :
    (processNewLine env sid sa st line).1.seenMessages = st.seenMessages := by
  have h1 := slugStep_seen env sid st line
  have h2 := todosStep_seen env sid (slugStep env sid st line).1 line
  unfold processNewLine
  dsimp only
  split
  · split <;> simp [h2, h1]
  · split
    · split
      · simp [h2, h1]
      · split <;> simp [h2, h1]
    · simp [h2, h1]

/-- A line hash present in the dedup cache makes the line loop a no-op. -/
theorem processLine_of_seen (env : TrackerEnv) (sid : String) (sa : Int) (st : SessState)
    (line : String) (h : st.seenMessages.contains (env.hash line) = true) :
    processLine env sid sa st line = (st, []) := by
  have hm : env.hash line ∈ st.seenMessages := by simpa using h
  unfold processLine
  simp [hm]

/-- After the line loop ran on a line, its hash is in the dedup cache. -/
theorem processLine_seen_contains (env : TrackerEnv) (sid : String) (sa : Int) (st : SessState)
    (line : String) :
    ((processLine env sid sa st line).1.seenMessages.contains (env.hash line)) = true := by
  unfold processLine
  by_cases hm : env.hash line ∈ st.seenMessages
  · simp [hm]
  · simp [hm, processNewLine_seen]

/-- The dedup cache only grows across one line-loop iteration. -/
theorem contains_processLine_mono (env : TrackerEnv) (sid : String) (sa : Int) (st : SessState)
    (l2 : String) (x : String) (h : st.seenMessages.contains x = true) :
    ((processLine env sid sa st l2).1.seenMessages.contains x) = true := by
  have hx : x ∈ st.seenMessages := by simpa using h
  unfold processLine
  by_cases hm : env.hash l2 ∈ st.seenMessages
  · simp [hm, hx]
  · simp [hm, processNewLine_seen, hx]

/-- The dedup cache only grows across a whole pass. -/
theorem contains_processLines_mono (env : TrackerEnv) (sid : String) (sa : Int) (x : String) :
    ∀ (ls : List String) (st : SessState), st.seenMessages.contains x = true →
      ((processLines env sid sa st ls).1.seenMessages.contains x) = true := by
  intro ls
  induction ls with
  | nil => intro st h; exact h
  | cons l ls ih =>
    intro st h
    have := contains_processLine_mono env sid sa st l x h
    simpa [processLines] using ih _ this

/-- C3: a line whose hash is in the per-session dedup cache produces no
events and no state change; the cache only grows, so an identical line
encountered again later in the same pass or any later pass (after any
intervening lines) emits nothing. -/
theorem line_dedup (env : TrackerEnv) (sid : String) (sa : Int) (st : SessState) (line : String) :
    (st.seenMessages.contains (env.hash line) = true →
      processLine env sid sa st line = (st, [])) ∧
    (∀ ls, st.seenMessages.contains (env.hash line) = true →
      processLine env sid sa (processLines env sid sa st ls).1 line =
        ((processLines env sid sa st ls).1, [])) ∧
    (processLine env sid sa (processLine env sid sa st line).1 line =
      ((processLine env sid sa st line).1, [])) := by
  refine ⟨processLine_of_seen env sid sa st line, ?_, ?_⟩
  · intro ls h
    exact processLine_of_seen env sid sa _ line
      (contains_processLines_mono env sid sa (env.hash line) ls st h)
  · exact processLine_of_seen env sid sa _ line (processLine_seen_contains env sid sa st line)

/-- Evaluation of the C3 theorem: replaying the slug line after a pass
that contained it emits nothing. -/
theorem line_dedup_witness :
    processLine wEnv "s1" 0
        (processLines wEnv "s1" 0
          { seenMessages := ["slugline"], slugFound := true, name := "my-slug",
            lastTodosHash := "", status := .running } ["todoline1"]).1 "slugline" =
      ((processLines wEnv "s1" 0
          { seenMessages := ["slugline"], slugFound := true, name := "my-slug",
            lastTodosHash := "", status := .running } ["todoline1"]).1, []) := by
  exact (line_dedup wEnv "s1" 0 _ "slugline").2.1 ["todoline1"] (by decide)

/-- Event lists concatenate through the onMessage detector. -/
theorem hasMessageEvent_append (a b : List Event) :
    hasMessageEvent (a ++ b) = (hasMessageEvent a || hasMessageEvent b) := by
  simp [hasMessageEvent]

/-- The slug branch never fires onMessage. -/
theorem hasMessageEvent_slugStep (env : TrackerEnv) (sid : String) (st : SessState)
    (line : String) :
    hasMessageEvent (slugStep env sid st line).2 = false := by
  unfold slugStep
  split
  · split <;> simp [hasMessageEvent]
  · simp [hasMessageEvent]

/-- The todos branch never fires onMessage. -/
theorem hasMessageEvent_todosStep (env : TrackerEnv) (sid : String) (st : SessState)
    (line : String) :
    hasMessageEvent (todosStep env sid st line).2 = false := by
  unfold todosStep
  split
  · dsimp only
    split <;> simp [hasMessageEvent]
  · simp [hasMessageEvent]

/-- Classification of a line whose parsed message has a timestamp before
startedAt fires no onMessage. -/
theorem processNewLine_no_message (env : TrackerEnv) (sid : String) (sa : Int) (st : SessState)
    (line : String) (m : ChatMessage)
    (hp : parseJsonlLine (env.jparse line) env.now = some m)
    (hb : dateBefore env m.timestamp sa = true) :
    hasMessageEvent (processNewLine env sid sa st line).2 = false := by
  have h1 := hasMessageEvent_slugStep env sid st line
  have h2 := hasMessageEvent_todosStep env sid (slugStep env sid st line).1 line
  unfold processNewLine
  dsimp only
  split
  · split <;> simp_all [hasMessageEvent_append, hasMessageEvent]
  · rw [hp]
    dsimp only
    rw [if_pos hb]
    simp [hasMessageEvent_append, h1, h2]

/-- C6: a classified Message whose timestamp is strictly before the
session startedAt value produces no onMessage event when its line is
processed. -/
theorem stale_message_filtered (env : TrackerEnv) (sid : String) (sa : Int) (st : SessState)
    (line : String) (m : ChatMessage)
    (hp : parseJsonlLine (env.jparse line) env.now = some m)
    (hb : dateBefore env m.timestamp sa = true) :
    hasMessageEvent (processLine env sid sa st line).2 = false := by
  unfold processLine
  by_cases hm : env.hash line ∈ st.seenMessages
  · simp [hm, hasMessageEvent]
  · rw [if_neg (by simp [hm])]
    exact processNewLine_no_message env sid sa _ line m hp hb

/-- Evaluation of the C6 theorem: a user message carrying timestamp t0
valued -5 against a session started at 0 is dropped. -/
theorem stale_message_filtered_witness :
    hasMessageEvent (processLine wEnv "s1" 0 initialSessState "oldmsg").2 = false := by
  exact stale_message_filtered wEnv "s1" 0 initialSessState "oldmsg"
    { role := .str "user", content := "hello", timestamp := .str "t0" } (by decide) (by decide)

/-- Event lists concatenate through the onTodos counter. -/
theorem countTodoEvents_append (a b : List Event) :
    countTodoEvents (a ++ b) = countTodoEvents a + countTodoEvents b := by
  simp [countTodoEvents]

/-- The slug branch never fires onTodos. -/
theorem countTodoEvents_slugStep (env : TrackerEnv) (sid : String) (st : SessState)
    (line : String) :
    countTodoEvents (slugStep env sid st line).2 = 0 := by
  unfold slugStep
  split
  · split <;> simp [countTodoEvents]
  · simp [countTodoEvents]

/-- Number of onTodos events fired by the todos branch. -/
theorem countTodoEvents_todosStep (env : TrackerEnv) (sid : String) (st : SessState)
    (line : String) :
    countTodoEvents (todosStep env sid st line).2 =
      (match extractTodos (env.jparse line) with
       | some todos => if (env.hash (env.stringifyTodos todos) != st.lastTodosHash) = true
           then 1 else 0
       | none => 0) := by
  unfold todosStep
  split
  next todos heq =>
    dsimp only
    split <;> simp_all [countTodoEvents]
  next heq =>
    simp [countTodoEvents]

/-- Last emitted todo hash after the todos branch. -/
theorem todosStep_lastTodosHash (env : TrackerEnv) (sid : String) (st : SessState)
    (line : String) :
    (todosStep env sid st line).1.lastTodosHash =
      (match extractTodos (env.jparse line) with
       | some todos => if (env.hash (env.stringifyTodos todos) != st.lastTodosHash) = true
           then env.hash (env.stringifyTodos todos) else st.lastTodosHash
       | none => st.lastTodosHash) := by
  unfold todosStep
  split
  next todos heq =>
    dsimp only
    split <;> simp_all
  next heq =>
    rfl

/-- The todos branch fires exactly the one onTodos event on a hash
change. -/
theorem todosStep_emits (env : TrackerEnv) (sid : String) (st : SessState) (line : String)
    (todos : List TodoItem)
    (ht : extractTodos (env.jparse line) = some todos)
    (hch : env.hash (env.stringifyTodos todos) ≠ st.lastTodosHash) :
    (todosStep env sid st line).2 = [Event.todos sid todos] := by
  unfold todosStep
  rw [ht]
  dsimp only
  rw [if_pos (by simp [bne_iff_ne, hch])]

/-- Classification fires the slug events, then the todos events, then the
status or message events of the line. -/
theorem processNewLine_events_shape (env : TrackerEnv) (sid : String) (sa : Int)
    (st : SessState) (line : String) :
    ∃ extra, (processNewLine env sid sa st line).2 =
      (slugStep env sid st line).2 ++
        (todosStep env sid (slugStep env sid st line).1 line).2 ++ extra := by
  unfold processNewLine
  dsimp only
  split
  · split
    · exact ⟨[.sessionStatus sid .idle], by simp⟩
    · exact ⟨[], by simp⟩
  · split
    next parsed heq =>
      split
      · exact ⟨[], by simp⟩
      · split
        · exact ⟨[.message sid parsed.role parsed.content, .sessionStatus sid .running], by simp⟩
        · exact ⟨[.message sid parsed.role parsed.content], by simp⟩
    next heq => exact ⟨[], by simp⟩

/-- Classification fires exactly the todos-branch onTodos events. -/
theorem countTodoEvents_processNewLine (env : TrackerEnv) (sid : String) (sa : Int)
    (st : SessState) (line : String) :
    countTodoEvents (processNewLine env sid sa st line).2 =
      countTodoEvents (todosStep env sid (slugStep env sid st line).1 line).2 := by
  have h1 := countTodoEvents_slugStep env sid st line
  unfold processNewLine
  dsimp only
  split
  · split <;> simp_all [countTodoEvents_append, countTodoEvents]
  · split
    · split
      · simp_all [countTodoEvents_append, countTodoEvents]
      · split <;> simp_all [countTodoEvents_append, countTodoEvents]
    · simp_all [countTodoEvents_append, countTodoEvents]

/-- Dedup cache after one line-loop iteration. -/
theorem processLine_seenMessages (env : TrackerEnv) (sid : String) (sa : Int) (st : SessState)
    (line : String) :
    (processLine env sid sa st line).1.seenMessages =
      if st.seenMessages.contains (env.hash line) = true then st.seenMessages
      else env.hash line :: st.seenMessages := by
  unfold processLine
  by_cases hc : st.seenMessages.contains (env.hash line) = true
  · rw [if_pos hc, if_pos hc]
  · rw [if_neg hc, if_neg hc, processNewLine_seen]

/-- Number of onTodos events fired by one line-loop iteration. -/
theorem countTodoEvents_processLine (env : TrackerEnv) (sid : String) (sa : Int)
    (st : SessState) (line : String) :
    countTodoEvents (processLine env sid sa st line).2 =
      (if st.seenMessages.contains (env.hash line) = true then 0
       else match extractTodos (env.jparse line) with
         | some todos => if (env.hash (env.stringifyTodos todos) != st.lastTodosHash) = true
             then 1 else 0
         | none => 0) := by
  unfold processLine
  by_cases hc : st.seenMessages.contains (env.hash line) = true
  · rw [if_pos hc, if_pos hc]
    simp [countTodoEvents]
  · rw [if_neg hc, if_neg hc, countTodoEvents_processNewLine, countTodoEvents_todosStep]
    simp [slugStep_lastTodosHash]

/-- Classification changes the last todo hash exactly as the todos branch
does. -/
theorem processNewLine_lastTodosHash (env : TrackerEnv) (sid : String) (sa : Int)
    (st : SessState) (line : String) :
    (processNewLine env sid sa st line).1.lastTodosHash =
      (todosStep env sid (slugStep env sid st line).1 line).1.lastTodosHash := by
  unfold processNewLine
  dsimp only
  split
  · split <;> rfl
  · split
    · split
      · rfl
      · split <;> rfl
    · rfl

/-- Last emitted todo hash after one line-loop iteration. -/
theorem processLine_lastTodosHash (env : TrackerEnv) (sid : String) (sa : Int)
    (st : SessState) (line : String) :
    (processLine env sid sa st line).1.lastTodosHash =
      (if st.seenMessages.contains (env.hash line) = true then st.lastTodosHash
       else match extractTodos (env.jparse line) with
         | some todos => if (env.hash (env.stringifyTodos todos) != st.lastTodosHash) = true
             then env.hash (env.stringifyTodos todos) else st.lastTodosHash
         | none => st.lastTodosHash) := by
  unfold processLine
  by_cases hc : st.seenMessages.contains (env.hash line) = true
  · rw [if_pos hc, if_pos hc]
  · rw [if_neg hc, if_neg hc, processNewLine_lastTodosHash, todosStep_lastTodosHash]
    simp [slugStep_lastTodosHash]

/-- A fresh todo-bearing line with a changed todo hash fires onTodos. -/
theorem todos_event_emitted (env : TrackerEnv) (sid : String) (sa : Int) (st : SessState)
    (line : String) (todos : List TodoItem)
    (hs : st.seenMessages.contains (env.hash line) = false)
    (ht : extractTodos (env.jparse line) = some todos)
    (hch : env.hash (env.stringifyTodos todos) ≠ st.lastTodosHash) :
    Event.todos sid todos ∈ (processLine env sid sa st line).2 := by
  unfold processLine
  rw [if_neg (by simpa using hs)]
  obtain ⟨extra, hev⟩ := processNewLine_events_shape env sid sa
    { st with seenMessages := env.hash line :: st.seenMessages } line
  rw [hev]
  have hch2 : env.hash (env.stringifyTodos todos) ≠
      (slugStep env sid { st with seenMessages := env.hash line :: st.seenMessages }
        line).1.lastTodosHash := by
    rw [slugStep_lastTodosHash]
    exact hch
  rw [todosStep_emits env sid _ line todos ht hch2]
  simp

/-- C7: two distinct fresh todo-bearing lines with the same extracted todo
list, processed back-to-back from a state whose last todo hash differs,
fire exactly one onTodos event; and in general a fresh todo-bearing line
fires onTodos whenever its todo hash differs from the last emitted one. -/
theorem todo_dedup (env : TrackerEnv) (sid : String) (sa : Int) (st : SessState)
    (l1 l2 : String) (todos : List TodoItem)
    (h1 : extractTodos (env.jparse l1) = some todos)
    (h2 : extractTodos (env.jparse l2) = some todos)
    (hs1 : st.seenMessages.contains (env.hash l1) = false)
    (hs2 : st.seenMessages.contains (env.hash l2) = false)
    (hne : env.hash l1 ≠ env.hash l2)
    (hch : env.hash (env.stringifyTodos todos) ≠ st.lastTodosHash) :
    countTodoEvents (processLines env sid sa st [l1, l2]).2 = 1 ∧
    Event.todos sid todos ∈ (processLine env sid sa st l1).2 ∧
    (∀ (st0 : SessState) (line : String) (ts : List TodoItem),
      st0.seenMessages.contains (env.hash line) = false →
      extractTodos (env.jparse line) = some ts →
      env.hash (env.stringifyTodos ts) ≠ st0.lastTodosHash →
      Event.todos sid ts ∈ (processLine env sid sa st0 line).2) := by
  refine ⟨?_, todos_event_emitted env sid sa st l1 todos hs1 h1 hch,
    fun st0 line ts hs ht hc => todos_event_emitted env sid sa st0 line ts hs ht hc⟩
  have e1 : countTodoEvents (processLine env sid sa st l1).2 = 1 := by
    rw [countTodoEvents_processLine, if_neg (by simpa using hs1)]
    simp only [h1]
    rw [if_pos (by simp [bne_iff_ne, hch])]
  have hseen1 : (processLine env sid sa st l1).1.seenMessages =
      env.hash l1 :: st.seenMessages := by
    rw [processLine_seenMessages, if_neg (by simpa using hs1)]
  have hlast1 : (processLine env sid sa st l1).1.lastTodosHash =
      env.hash (env.stringifyTodos todos) := by
    rw [processLine_lastTodosHash, if_neg (by simpa using hs1)]
    simp only [h1]
    rw [if_pos (by simp [bne_iff_ne, hch])]
  have hs2b : (processLine env sid sa st l1).1.seenMessages.contains (env.hash l2) = false := by
    rw [hseen1]
    have hs2m : env.hash l2 ∉ st.seenMessages := by simpa using hs2
    simp [hs2m, Ne.symm hne]
  have e2 : countTodoEvents (processLine env sid sa (processLine env sid sa st l1).1 l2).2 = 0 := by
    rw [countTodoEvents_processLine, if_neg (by simpa using hs2b)]
    simp only [h2, hlast1]
    simp
  have hstep : processLines env sid sa st [l1, l2] =
      ((processLine env sid sa (processLine env sid sa st l1).1 l2).1,
        (processLine env sid sa st l1).2 ++
          ((processLine env sid sa (processLine env sid sa st l1).1 l2).2 ++ [])) := rfl
  rw [hstep]
  show countTodoEvents ((processLine env sid sa st l1).2 ++
    ((processLine env sid sa (processLine env sid sa st l1).1 l2).2 ++ [])) = 1
  rw [countTodoEvents_append, countTodoEvents_append, e1, e2]
  simp [countTodoEvents]

/-- Evaluation of the C7 theorem: the two concrete todo lines of `wEnv`
carrying the same todo list fire exactly one onTodos event. -/
theorem todo_dedup_witness :
    countTodoEvents (processLines wEnv "s1" 0 initialSessState ["todoline1", "todoline2"]).2 = 1 ∧
    Event.todos "s1" wTodos ∈ (processLine wEnv "s1" 0 initialSessState "todoline1").2 := by
  have h := todo_dedup wEnv "s1" 0 initialSessState "todoline1" "todoline2" wTodos
    (by decide) (by decide) (by decide) (by decide) (by decide) (by decide)
  exact ⟨h.1, h.2.1⟩

/-- Event lists concatenate through the onSessionUpdate counter. -/
theorem countUpdateEvents_append (a b : List Event) :
    countUpdateEvents (a ++ b) = countUpdateEvents a + countUpdateEvents b := by
  simp [countUpdateEvents]

/-- The todos branch never renames the session. -/
theorem todosStep_name (env : TrackerEnv) (sid : String) (st : SessState) (line : String) :
    (todosStep env sid st line).1.name = st.name := by
  unfold todosStep
  split
  · dsimp only
    split <;> rfl
  · rfl

/-- The todos branch never touches the slug flag. -/
theorem todosStep_slugFound (env : TrackerEnv) (sid : String) (st : SessState) (line : String) :
    (todosStep env sid st line).1.slugFound = st.slugFound := by
  unfold todosStep
  split
  · dsimp only
    split <;> rfl
  · rfl

/-- The todos branch never fires onSessionUpdate. -/
theorem countUpdateEvents_todosStep (env : TrackerEnv) (sid : String) (st : SessState)
    (line : String) :
    countUpdateEvents (todosStep env sid st line).2 = 0 := by
  unfold todosStep
  split
  · dsimp only
    split <;> simp [countUpdateEvents]
  · simp [countUpdateEvents]

/-- Classification leaves the session name as the slug branch set it. -/
theorem processNewLine_name (env : TrackerEnv) (sid : String) (sa : Int) (st : SessState)
    (line : String) :
    (processNewLine env sid sa st line).1.name = (slugStep env sid st line).1.name := by
  have h2 := todosStep_name env sid (slugStep env sid st line).1 line
  unfold processNewLine
  dsimp only
  split
  · split <;> simp [h2]
  · split
    · split
      · simp [h2]
      · split <;> simp [h2]
    · simp [h2]

/-- Classification leaves the slug flag as the slug branch set it. -/
theorem processNewLine_slugFound (env : TrackerEnv) (sid : String) (sa : Int) (st : SessState)
    (line : String) :
    (processNewLine env sid sa st line).1.slugFound = (slugStep env sid st line).1.slugFound := by
  have h2 := todosStep_slugFound env sid (slugStep env sid st line).1 line
  unfold processNewLine
  dsimp only
  split
  · split <;> simp [h2]
  · split
    · split
      · simp [h2]
      · split <;> simp [h2]
    · simp [h2]

/-- Classification fires exactly the slug-branch onSessionUpdate events. -/
theorem countUpdateEvents_processNewLine (env : TrackerEnv) (sid : String) (sa : Int)
    (st : SessState) (line : String) :
    countUpdateEvents (processNewLine env sid sa st line).2 =
      countUpdateEvents (slugStep env sid st line).2 := by
  have h2 := countUpdateEvents_todosStep env sid (slugStep env sid st line).1 line
  unfold processNewLine
  dsimp only
  split
  · split <;> simp_all [countUpdateEvents_append, countUpdateEvents]
  · split
    · split
      · simp_all [countUpdateEvents_append, countUpdateEvents]
      · split <;> simp_all [countUpdateEvents_append, countUpdateEvents]
    · simp_all [countUpdateEvents_append, countUpdateEvents]

/-- The slug branch is inert once a slug was found. -/
theorem slugStep_found (env : TrackerEnv) (sid : String) (st : SessState) (line : String)
    (h : st.slugFound = true) :
    slugStep env sid st line = (st, []) := by
  unfold slugStep
  simp [h]

/-- OnSessionUpdate accounting of the slug branch. -/
theorem slugStep_accounting (env : TrackerEnv) (sid : String) (st : SessState) (line : String) :
    countUpdateEvents (slugStep env sid st line).2 =
      (if st.slugFound then 0 else if (slugStep env sid st line).1.slugFound then 1 else 0) := by
  unfold slugStep
  by_cases h : st.slugFound = true
  · simp [h, countUpdateEvents]
  · have h' : st.slugFound = false := by simpa using h
    simp only [h', Bool.not_false, if_true]
    split
    next slug heq => simp [countUpdateEvents]
    next heq => simp [h', countUpdateEvents]

/-- One line-loop iteration from a state that already found its slug
neither renames the session nor fires onSessionUpdate. -/
theorem processLine_slugFound_mono (env : TrackerEnv) (sid : String) (sa : Int) (st : SessState)
    (line : String) (h : st.slugFound = true) :
    (processLine env sid sa st line).1.slugFound = true ∧
    (processLine env sid sa st line).1.name = st.name ∧
    countUpdateEvents (processLine env sid sa st line).2 = 0 := by
  unfold processLine
  by_cases hm : env.hash line ∈ st.seenMessages
  · simp [hm, h, countUpdateEvents]
  · rw [if_neg (by simpa using hm)]
    have hsf : ({ st with seenMessages := env.hash line :: st.seenMessages } : SessState).slugFound
        = true := h
    rw [processNewLine_slugFound, processNewLine_name, countUpdateEvents_processNewLine,
      slugStep_found env sid _ line hsf]
    simp [h, countUpdateEvents]

/-- OnSessionUpdate accounting of one line-loop iteration: an update costs
the one-shot slug budget. -/
theorem processLine_update_bound (env : TrackerEnv) (sid : String) (sa : Int) (st : SessState)
    (line : String) :
    countUpdateEvents (processLine env sid sa st line).2 +
      (if (processLine env sid sa st line).1.slugFound then 0 else 1) ≤
      (if st.slugFound then 0 else 1) := by
  unfold processLine
  by_cases hm : env.hash line ∈ st.seenMessages
  · simp [hm, countUpdateEvents]
  · rw [if_neg (by simpa using hm)]
    rw [countUpdateEvents_processNewLine, processNewLine_slugFound, slugStep_accounting]
    by_cases h : st.slugFound = true
    · have hsf : ({ st with seenMessages := env.hash line :: st.seenMessages } : SessState).slugFound
          = true := h
      rw [slugStep_found env sid _ line hsf]
      simp [h]
    · have h' : st.slugFound = false := by simpa using h
      simp only [h']
      cases hsb : (slugStep env sid
          { st with seenMessages := env.hash line :: st.seenMessages, slugFound := false }
          line).1.slugFound <;> simp [hsb]

/-- Whole-pass slug accounting: a found slug stays found with no further
updates or renames, and the number of onSessionUpdate events never
exceeds the one-shot budget. -/
theorem processLines_slug (env : TrackerEnv) (sid : String) (sa : Int) :
    ∀ (lines : List String) (st : SessState),
      (st.slugFound = true →
        countUpdateEvents (processLines env sid sa st lines).2 = 0 ∧
        (processLines env sid sa st lines).1.name = st.name) ∧
      countUpdateEvents (processLines env sid sa st lines).2 +
          (if (processLines env sid sa st lines).1.slugFound then 0 else 1) ≤
        (if st.slugFound then 0 else 1) := by
  intro lines
  induction lines with
  | nil =>
    intro st
    exact ⟨fun _ => ⟨by simp [processLines, countUpdateEvents], rfl⟩, by simp [processLines, countUpdateEvents]⟩
  | cons l ls ih =>
    intro st
    have hstep : processLines env sid sa st (l :: ls) =
        ((processLines env sid sa (processLine env sid sa st l).1 ls).1,
          (processLine env sid sa st l).2 ++
            (processLines env sid sa (processLine env sid sa st l).1 ls).2) := rfl
    constructor
    · intro h
      obtain ⟨hf1, hn1, hc1⟩ := processLine_slugFound_mono env sid sa st l h
      obtain ⟨hc2, hn2⟩ := (ih (processLine env sid sa st l).1).1 hf1
      rw [hstep]
      constructor
      · show countUpdateEvents ((processLine env sid sa st l).2 ++
          (processLines env sid sa (processLine env sid sa st l).1 ls).2) = 0
        rw [countUpdateEvents_append, hc1, hc2]
      · show (processLines env sid sa (processLine env sid sa st l).1 ls).1.name = st.name
        rw [hn2, hn1]
    · have hb1 := processLine_update_bound env sid sa st l
      have hb2 := (ih (processLine env sid sa st l).1).2
      rw [hstep]
      show countUpdateEvents ((processLine env sid sa st l).2 ++
          (processLines env sid sa (processLine env sid sa st l).1 ls).2) +
          (if (processLines env sid sa (processLine env sid sa st l).1 ls).1.slugFound
            then 0 else 1) ≤ (if st.slugFound then 0 else 1)
      rw [countUpdateEvents_append]
      omega

/-- A fresh line carrying a slug, from a state with no slug yet, renames
the session and fires onSessionUpdate. -/
theorem slug_event_emitted (env : TrackerEnv) (sid : String) (sa : Int) (st : SessState)
    (line : String) (slug : String)
    (hf : st.slugFound = false)
    (hs : st.seenMessages.contains (env.hash line) = false)
    (hslug : extractSlug (env.jparse line) = some slug) :
    (processLine env sid sa st line).1.name = slug ∧
    (processLine env sid sa st line).1.slugFound = true ∧
    Event.sessionUpdate sid slug ∈ (processLine env sid sa st line).2 := by
  unfold processLine
  rw [if_neg (by simpa using hs)]
  have hstep : slugStep env sid { st with seenMessages := env.hash line :: st.seenMessages } line =
      ({ st with
          seenMessages := env.hash line :: st.seenMessages
          slugFound := true
          name := slug }, [.sessionUpdate sid slug]) := by
    unfold slugStep
    rw [if_pos (by simp [hf])]
    simp only [hslug]
  refine ⟨?_, ?_, ?_⟩
  · rw [processNewLine_name, hstep]
  · rw [processNewLine_slugFound, hstep]
  · obtain ⟨extra, hev⟩ := processNewLine_events_shape env sid sa
      { st with seenMessages := env.hash line :: st.seenMessages } line
    rw [hev, hstep]
    simp

/-- C8: the session name is updated from a slug at most once per pass:
once the slug flag is set no pass renames the session or fires
onSessionUpdate again, every pass fires at most one onSessionUpdate, and
the first fresh slug-bearing line sets the name and fires exactly the one
notification. -/
theorem slug_once (env : TrackerEnv) (sid : String) (sa : Int) (st : SessState)
    (lines : List String) :
    (st.slugFound = true →
      countUpdateEvents (processLines env sid sa st lines).2 = 0 ∧
      (processLines env sid sa st lines).1.name = st.name) ∧
    countUpdateEvents (processLines env sid sa st lines).2 ≤ 1 ∧
    (∀ line slug, st.slugFound = false →
      st.seenMessages.contains (env.hash line) = false →
      extractSlug (env.jparse line) = some slug →
      (processLine env sid sa st line).1.name = slug ∧
      (processLine env sid sa st line).1.slugFound = true ∧
      Event.sessionUpdate sid slug ∈ (processLine env sid sa st line).2) := by
  refine ⟨(processLines_slug env sid sa lines st).1, ?_,
    fun line slug hf hs hslug => slug_event_emitted env sid sa st line slug hf hs hslug⟩
  have h := (processLines_slug env sid sa lines st).2
  have h1 : (if st.slugFound then (0 : Nat) else 1) ≤ 1 := by
    cases st.slugFound <;> simp
  omega

/-- Evaluation of the C8 theorem on the concrete slug line of `wEnv`. -/
theorem slug_once_witness :
    countUpdateEvents (processLines wEnv "s1" 0 initialSessState ["slugline"]).2 ≤ 1 ∧
    (processLine wEnv "s1" 0 initialSessState "slugline").1.name = "my-slug" ∧
    (processLine wEnv "s1" 0 initialSessState "slugline").1.slugFound = true ∧
    Event.sessionUpdate "s1" "my-slug" ∈ (processLine wEnv "s1" 0 initialSessState "slugline").2 := by
  have h := slug_once wEnv "s1" 0 initialSessState ["slugline"]
  exact ⟨h.2.1, h.2.2 "slugline" "my-slug" rfl (by decide) (by decide)⟩

/-- C2 counterexample: a read whose content is a single fragment not
terminated by any line break is still hashed into the dedup cache and
classified (here it carries a slug and fires onSessionUpdate), refuting
the exclusion of partial trailing fragments. -/
theorem partial_line_counterexample :
    ("slugline".toList.contains '\n') = false ∧
    ((processJsonlUpdates wEnv "s1" 0 initialSessState "slugline").1.seenMessages.contains
      (wEnv.hash "slugline")) = true ∧
    (processJsonlUpdates wEnv "s1" 0 initialSessState "slugline").2 =
      [.sessionUpdate "s1" "my-slug"] := by decide

/-- C2 amended: the update pass splits the content on line breaks and
processes every non-empty segment, so content consisting of one
unterminated fragment is processed exactly like a complete line. -/
theorem unterminated_fragment_processed (env : TrackerEnv) (sid : String) (sa : Int)
    (st : SessState) (content : String)
    (hne : content ≠ "") (hnl : content.toList.contains '\n' = false) :
    processJsonlUpdates env sid sa st content = processLine env sid sa st content := by
  have hmem : ∀ c ∈ content.toList, ¬((c == '\n') = true) := by
    intro c hc hceq
    have hc2 : c = '\n' := by simpa using hceq
    subst hc2
    exact absurd hc (by simpa using hnl)
  have h1 : content.toList.splitOn '\n' = [content.toList] := by
    unfold List.splitOn
    exact List.splitOnP_eq_single _ _ hmem
  have h2 : String.mk content.toList = content := by
    cases content
    rfl
  have hsplit : splitLines content = [content] := by
    unfold splitLines
    rw [h1]
    simp [h2, hne]
  unfold processJsonlUpdates
  rw [hsplit]
  show processLines env sid sa st [content] = processLine env sid sa st content
  simp [processLines]

/-- Evaluation of the amended C2 theorem on the concrete unterminated slug
fragment. -/
theorem unterminated_fragment_processed_witness :
    processJsonlUpdates wEnv "s1" 0 initialSessState "slugline" =
      processLine wEnv "s1" 0 initialSessState "slugline" := by
  exact unterminated_fragment_processed wEnv "s1" 0 initialSessState "slugline"
    (by decide) (by decide)

/-- C4: the parsing functions are total; a failed JSON parse yields the
None results, a record with an unrecognized type or blank content parses
to no message, and a line that fails to parse fires no event at all. -/
theorem parsers_never_throw :
    (∀ now, parseJsonlLine none now = none) ∧
    extractSlug none = none ∧
    extractTodos none = none ∧
    isStopHookSummary none = false ∧
    (∀ (data : Json) (now : String),
      (fieldIsStr data "type" "user" || fieldIsStr data "type" "assistant") = false →
      parseJsonlLine (some data) now = none) ∧
    (∀ (data m : Json) (c : String) (now : String), data.getField "message" = some m →
      contentOfMessage m = some c → jsTrim c = "" → parseJsonlLine (some data) now = none) ∧
    (∀ (data m : Json) (now : String), data.getField "message" = some m →
      contentOfMessage m = none → parseJsonlLine (some data) now = none) ∧
    (∀ (env : TrackerEnv) (sid : String) (sa : Int) (st : SessState) (line : String),
      env.jparse line = none → (processLine env sid sa st line).2 = []) := by
  refine ⟨fun _ => rfl, rfl, rfl, rfl, ?_, ?_, ?_, ?_⟩
  · intro data now h
    simp [parseJsonlLine, h]
  · intro data m c now hm hc h
    simp [parseJsonlLine, hm, hc, h]
  · intro data m now hm hc
    simp [parseJsonlLine, hm, hc]
  · intro env sid sa st line h
    unfold processLine
    by_cases hmem : env.hash line ∈ st.seenMessages
    · simp [hmem]
    · rw [if_neg (by simpa using hmem)]
      unfold processNewLine
      dsimp only
      have e1 : slugStep env sid { st with seenMessages := env.hash line :: st.seenMessages }
          line = ({ st with seenMessages := env.hash line :: st.seenMessages }, []) := by
        simp [slugStep, h, extractSlug]
      rw [e1]
      have e2 : todosStep env sid { st with seenMessages := env.hash line :: st.seenMessages }
          line = ({ st with seenMessages := env.hash line :: st.seenMessages }, []) := by
        simp [todosStep, h, extractTodos]
      rw [e2]
      rw [h]
      simp [isStopHookSummary, parseJsonlLine]

/-- Evaluation of the C4 theorem: a failed parse for each function, an
unrecognized record type, blank content, and an unparseable line in the
line loop. -/
theorem parsers_never_throw_witness :
    parseJsonlLine none "t" = none ∧
    extractSlug none = none ∧
    extractTodos none = none ∧
    isStopHookSummary none = false ∧
    parseJsonlLine (some (.obj (.cons "type" (.str "summary") .nil))) "t" = none ∧
    parseJsonlLine (some (.obj (.cons "type" (.str "user")
      (.cons "message" (.obj (.cons "role" (.str "user")
        (.cons "content" (.str "   ") .nil))) .nil)))) "t" = none ∧
    parseJsonlLine (some (.obj (.cons "type" (.str "user")
      (.cons "message" (.obj (.cons "role" (.str "user")
        (.cons "content" (.arr (.cons .null .nil)) .nil))) .nil)))) "t" = none ∧
    (processLine wEnv "s1" 0 initialSessState "notjson").2 = [] := by
  have h := parsers_never_throw
  refine ⟨h.1 "t", h.2.1, h.2.2.1, h.2.2.2.1, ?_, ?_, ?_, ?_⟩
  · exact h.2.2.2.2.1 _ "t" (by decide)
  · exact h.2.2.2.2.2.1 _ (.obj (.cons "role" (.str "user") (.cons "content" (.str "   ") .nil)))
      "   " "t" (by decide) (by decide) (by decide)
  · exact h.2.2.2.2.2.2.1 _
      (.obj (.cons "role" (.str "user") (.cons "content" (.arr (.cons .null .nil)) .nil)))
      "t" (by decide) (by decide)
  · exact h.2.2.2.2.2.2.2 wEnv "s1" 0 initialSessState "notjson" (by decide)

/-- C5 counterexample: a record with type user, no meta or subtype marker
and non-empty content, but whose message value carries no role field,
satisfies the conditions of the claim yet parses to None. -/
theorem parseJsonl_iff_counterexample :
    claimC5Conditions c5Record = true ∧ parseJsonlLine (some c5Record) "now" = none := by decide

/-- C5 amended: parseJsonlLine yields a message exactly when the declared
type is user or assistant, there is no meta or subtype marker, the record
has a truthy message value with a truthy role field, and the content
evaluation neither throws (no null element in a content block array) nor
trims to the empty string. -/
theorem parseJsonl_some_iff (data : Json) (now : String) :
    (parseJsonlLine (some data) now).isSome =
      ((fieldIsStr data "type" "user" || fieldIsStr data "type" "assistant")
        && !(truthyOpt (data.getField "isMeta") || truthyOpt (data.getField "subtype"))
        && hasTruthyMessageRole data && contentOkNonEmpty data) := by
  unfold parseJsonlLine hasTruthyMessageRole contentOkNonEmpty
  cases hm : data.getField "message" with
  | none =>
    by_cases h1 : (fieldIsStr data "type" "user" || fieldIsStr data "type" "assistant") = true <;>
      by_cases h2 : (truthyOpt (data.getField "isMeta") ||
        truthyOpt (data.getField "subtype")) = true <;>
      simp [hm, h1, h2]
  | some m =>
    cases hc : contentOfMessage m with
    | none =>
      by_cases h1 : (fieldIsStr data "type" "user" ||
          fieldIsStr data "type" "assistant") = true <;>
        by_cases h2 : (truthyOpt (data.getField "isMeta") ||
          truthyOpt (data.getField "subtype")) = true <;>
        by_cases h3 : m.truthy = true <;>
        by_cases h4 : truthyOpt (m.getField "role") = true <;>
        simp [hm, hc, h1, h2, h3, h4]
    | some c =>
      by_cases h1 : (fieldIsStr data "type" "user" ||
          fieldIsStr data "type" "assistant") = true <;>
        by_cases h2 : (truthyOpt (data.getField "isMeta") ||
          truthyOpt (data.getField "subtype")) = true <;>
        by_cases h3 : m.truthy = true <;>
        by_cases h4 : truthyOpt (m.getField "role") = true <;>
        by_cases h5 : (jsTrim c == "") = true <;>
        simp [hm, hc, h1, h2, h3, h4, h5, bne]
